import Mathlib

/-!
Verification of the tile-processor repository (tudelft3d/tile-processor).

This file gives a shallow embedding of the two core subsystems of the
repository and proves / refutes the frozen claims about them:

* the tile partitioning engine of src/tile_processor/tileconfig.py
  (DbTiles.configure / with_list / tiles_in_index / all_in_index, and
  DbTilesAHN.configure / create_elevation_file_index), and
* the worker-pool execution engine of src/tile_processor/processor.py
  (ThreadProcessor.process / ThreadProcessor._process).

Database queries are external collaborators: they are modelled as oracle
data carried in an environment record (the rows that the relational store
would return).  The filesystem seen by os.listdir is likewise part of the
input (each directory source carries its listing).  Python exceptions are
modelled with an explicit error type and the Except monad.
-/

namespace TileProc

/-- Python exceptions that the embedded code can raise.  The ValueError
messages of the source are distinguished by constructor instead of by
message text. -/
inductive PyError where
  /-- ValueError raised by DbTiles.configure when both or neither selector
  is supplied (tileconfig.py line 86). -/
  | valueErrorProvideEither
  /-- ValueError raised by DbTiles.with_list when no requested tile is in
  the index (tileconfig.py lines 205-207). -/
  | valueErrorNoTilesInIndex
  /-- ValueError raised by DbTilesAHN.configure when the requested AHN
  version is not in the index (tileconfig.py line 343). -/
  | valueErrorVersionNotInIndex (version : Int)
  /-- NotImplementedError raised by DbTiles.read_extent (line 107) and by
  create_tile_view when tin is true (line 682). -/
  | notImplementedError
  /-- AttributeError raised by the final else of DbTilesAHN.configure
  (tileconfig.py line 393). -/
  | attributeErrorUnknownConfiguration
  /-- KeyError from a dict subscript on a missing key. -/
  | keyError
  /-- TypeError from using None where a dict is required. -/
  | typeError
  /-- NameError from the del statements when the per-tile loop never ran
  and its loop-local names were never bound. -/
  | nameError
deriving DecidableEq, Repr

/-! ## Python dict as an association list

Python dicts preserve insertion order; overwriting a key keeps its
original position.  We model a dict as a `List (κ × V)` with unique keys
by construction. -/

section Dict

variable {κ : Type} [DecidableEq κ] {V : Type}

/-- Python dict lookup: first (and only) binding of the key. -/
def lookupD (k : κ) : List (κ × V) → Option V
  | [] => none
  | (k', v) :: d => if k = k' then some v else lookupD k d

/-- Python dict assignment d[k] = v: overwrite in place, else append. -/
def insertD (k : κ) (v : V) : List (κ × V) → List (κ × V)
  | [] => [(k, v)]
  | (k', v') :: d => if k = k' then (k, v) :: d else (k', v') :: insertD k v d

/-- The keys of a dict, in insertion order. -/
def keysD (d : List (κ × V)) : List κ := d.map Prod.fst

end Dict

section DictMore

variable {κ : Type} [DecidableEq κ] {V : Type}

/-- The try/except block of the merge loop of create_elevation_file_index
(tileconfig.py lines 473-476): file_index[t] += paths when t is present
(KeyError absent), otherwise file_index[t] = paths. -/
def appendAtD (k : κ) (v : List V) : List (κ × List V) → List (κ × List V)
  | [] => [(k, v)]
  | (k', v') :: d => if k = k' then (k', v' ++ v) :: d else (k', v') :: appendAtD k v d

/-- Python dict merge via unpacking: the expression built at tileconfig.py
line 478.  Keys of a keep their position, with the value of b when b also
binds them; keys only in b follow in b's order. -/
def mergeD (a b : List (κ × V)) : List (κ × V) :=
  (a.map fun p => (p.1, (lookupD p.1 b).getD p.2)) ++
    b.filter fun p => (lookupD p.1 a).isNone

/-- Left-biased choice on Option, used to state lookup results of merges. -/
def oor : Option V → Option V → Option V
  | some x, _ => some x
  | none, b => b

end DictMore

/-! ## String helpers

Python str.lower and the case-insensitive literal matching used by the
compiled pattern of create_elevation_file_index. -/

/-- Python str.lower for the ASCII identifiers handled here. -/
def strLower (s : String) : String := String.mk (s.toList.map Char.toLower)

/-- Case-insensitive equality of character lists (re.IGNORECASE). -/
def ciEq (a b : List Char) : Bool := a.map Char.toLower == b.map Char.toLower

/-- Does the literal pat match (case-insensitively) inside name starting at
position i (with enough characters left)? -/
def matchesAt (pat name : List Char) (i : Nat) : Bool :=
  decide (i + pat.length ≤ name.length) && ciEq ((name.drop i).take pat.length) pat

/-- Does the literal lookbehind pat match ending at position i? -/
def lookbehindAt (pat name : List Char) (i : Nat) : Bool :=
  decide (pat.length ≤ i) && ciEq ((name.drop (i - pat.length)).take pat.length) pat

/-- The segment name[i..j) contains no newline (the regex dot of the
compiled pattern never matches a newline). -/
def noNewline (name : List Char) (i j : Nat) : Bool :=
  ((name.drop i).take (j - i)).all fun c => c != '\n'

/-- re.search on the pattern compiled at tileconfig.py line 456, which is
lookbehind l, greedy dot-star, lookahead r, case-insensitive: the leftmost
position i preceded by l such that r occurs at some j at or after i, taking
the greatest such j (greedy).  The l and r pieces of the file pattern are
matched literally; the claims only involve pattern pieces without regex
metacharacters besides the dot of a literal file extension, for which
literal matching agrees on every input considered. -/
def findMatch (l r : List Char) (name : List Char) : Option (List Char) :=
  let n := name.length
  ((List.range (n + 1)).filterMap fun i =>
    if lookbehindAt l name i then
      match ((List.range (n + 1)).filter fun j =>
          decide (i ≤ j) && matchesAt r name j && noNewline name i j).getLast? with
      | some j => some ((name.drop i).take (j - i))
      | none => none
    else none).head?

/-- The piece of the file pattern before the tile placeholder:
file_pattern[: file_pattern.find("{")] (tileconfig.py line 454).  A missing
brace gives find = -1, hence the slice drops the last character. -/
def lPartOf (pat : List Char) : List Char :=
  match pat.findIdx? (· = '{') with
  | some i => pat.take i
  | none => pat.take (pat.length - 1)

/-- The piece after the placeholder: file_pattern[file_pattern.find("}") + 1 :]
(tileconfig.py line 455); find = -1 gives the whole string. -/
def rPartOf (pat : List Char) : List Char :=
  match pat.findIdx? (· = '}') with
  | some i => pat.drop (i + 1)
  | none => pat

/-- Tile-id extraction from one file name: the regex search followed by
.group(0).lower() (tileconfig.py lines 461-463). -/
def extractTile (filePattern name : String) : Option String :=
  (findMatch (lPartOf filePattern.toList) (rPartOf filePattern.toList) name.toList).map
    fun cs => String.mk (cs.map Char.toLower)

/-- os.path.join(dir, item) for a non-absolute item, as produced by
os.listdir (tileconfig.py line 459). -/
def pyJoin (dir item : String) : String :=
  if dir = "" then item
  else if dir.toList.getLast? = some '/' then dir ++ item
  else dir ++ "/" ++ item

/-! ## FileIndexer: DbTilesAHN.create_elevation_file_index -/

/-- One entry of the directory_mapping argument together with the
os.listdir view of that directory: the directory path, its file_pattern
and priority, and the directory entries (name, os.path.isfile) in listing
order. -/
structure DirSource where
  dir : String
  file_pattern : String
  priority : Int
  entries : List (String × Bool)
deriving DecidableEq, Repr

/-- A file index: Python dict tile id to list of file paths. -/
abbrev FileIdx := List (String × List String)

/-- The per-directory scan (tileconfig.py lines 451-465): for every file
directly inside the directory, extract the tile id; on success store the
singleton path list, overwriting any earlier file with the same tile id. -/
def scanStep (pat dir : String) (idx : FileIdx) (e : String × Bool) : FileIdx :=
  if e.2 then
    match extractTile pat e.1 with
    | some tile => insertD tile [pyJoin dir e.1] idx
    | none => idx
  else idx

def scanDir (s : DirSource) : FileIdx :=
  s.entries.foldl (scanStep s.file_pattern s.dir) []

/-- The comparison key of the sort at tileconfig.py line 449. -/
def priLE (a b : DirSource) : Prop := a.priority ≤ b.priority

instance : DecidableRel priLE :=
  fun a b => inferInstanceAs (Decidable (a.priority ≤ b.priority))

instance : IsTotal DirSource priLE := ⟨fun a b => le_total a.priority b.priority⟩

instance : IsTrans DirSource priLE := ⟨fun _ _ _ hab hbc => le_trans hab hbc⟩

/-- sorted(directory_mapping.items(), key=priority) (tileconfig.py
line 449): a stable sort ascending by priority.  Insertion sort places an
earlier element before later elements of equal priority, exactly like
Python's stable sorted. -/
def sortByPriority (l : List DirSource) : List DirSource :=
  List.insertionSort priLE l

/-- The tie branch of the merge loop (tileconfig.py lines 470-476): append
every per-tile path list of the current directory onto the running index. -/
def tieMerge (fi di : FileIdx) : FileIdx :=
  (keysD di).foldl (fun acc t => appendAtD t ((lookupD t di).getD []) acc) fi

/-- The merge loop of create_elevation_file_index (tileconfig.py lines
466-480) over the reversed priority-sorted sources: the first directory
seeds the index, a directory of the same priority as the previous one is
appended per tile, a directory of a different (strictly smaller) priority
overrides key-wise.  The priority list of the source is only read through
its last element, carried here as prev. -/
def mergeGo (f_idx : List (String × FileIdx)) : Option Int → FileIdx → List DirSource → FileIdx
  | _, fi, [] => fi
  | prev, fi, s :: rest =>
    let di := (lookupD s.dir f_idx).getD []
    match prev with
    | none => mergeGo f_idx (some s.priority) di rest
    | some p =>
      if p = s.priority then mergeGo f_idx (some s.priority) (tieMerge fi di) rest
      else mergeGo f_idx (some s.priority) (mergeD fi di) rest

/-- The first loop of create_elevation_file_index (tileconfig.py lines
451-465): the dict f_idx mapping each directory to its scan. -/
def f_idxOf (srcs : List DirSource) : List (String × FileIdx) :=
  srcs.foldl (fun acc s => insertD s.dir (scanDir s) acc) []

/-- The body of create_elevation_file_index after the early return
(tileconfig.py lines 442-482): scan every directory in priority order into
f_idx, then merge from least-preferred to most-preferred. -/
def build_file_index (srcs : List DirSource) : FileIdx :=
  let sorted := sortByPriority srcs
  mergeGo (f_idxOf sorted) none [] sorted.reverse

/-- The last non-none entry of a list of options: the value of the last
covering source under an override chain. -/
def lastSome {α : Type} : List (Option α) → Option α
  | [] => none
  | x :: xs => oor (lastSome xs) x

/-- The first non-none entry of a list of options: the value of the first
covering source in priority order. -/
def firstSome {α : Type} : List (Option α) → Option α
  | [] => none
  | x :: xs => oor x (firstSome xs)

/-- Concatenating combination of two optional path lists, describing what
the tie branch of the merge loop produces for one tile. -/
def combineOpt {α : Type} : Option (List α) → Option (List α) → Option (List α)
  | none, b => b
  | some xs, none => some xs
  | some xs, some ys => some (xs ++ ys)

/-- DbTilesAHN.create_elevation_file_index (tileconfig.py lines 398-482).
The directory_mapping dict is given as its item list; none models the
Python None argument.  A falsy mapping (None or empty) returns None, not
an empty dict (line 438-440). -/
def create_elevation_file_index (directory_mapping : Option (List DirSource)) :
    Option FileIdx :=
  match directory_mapping with
  | none => none
  | some srcs => if srcs.isEmpty then none else some (build_file_index srcs)

/-! ## TilePartitioner base mode: DbTiles

The tile index lives in PostgreSQL; it is modelled by the list of values
of the tile-id column of the boundaries table, in row order (duplicates
allowed).  SELECT DISTINCT is modelled by List.dedup; the row order
of a DISTINCT result is implementation-defined in the store, so any
duplicate-free enumeration with the same membership is a faithful model.
The shuffle applied by within_extent makes order explicitly meaningless. -/

/-- Python truthiness of an optional string argument (None and the empty
string are falsy). -/
def truthyOptStr : Option String → Bool
  | none => false
  | some s => !s.isEmpty

/-- Python truthiness of an optional list argument (None and the empty
list are falsy). -/
def truthyOptList : Option (List String) → Bool
  | none => false
  | some l => !l.isEmpty

/-- DbTiles.all_in_index (tileconfig.py lines 211-224): SELECT DISTINCT
tile FROM index. -/
def all_in_index (index : List String) : List String := index.dedup

/-- DbTiles.tiles_in_index (tileconfig.py lines 226-249): SELECT DISTINCT
tile FROM index WHERE tile = ANY(tiles).  Requested ids that are absent
are only logged at warning level, which has no effect on the result. -/
def tiles_in_index (index tiles : List String) : List String :=
  (index.filter fun t => decide (t ∈ tiles)).dedup

/-- DbTiles.with_list (tileconfig.py lines 196-209). -/
def with_list (index tiles : List String) : Except PyError (List String) :=
  let in_index := if tiles = ["all"] then all_in_index index else tiles_in_index index tiles
  if in_index.length = 0 then .error .valueErrorNoTilesInIndex else .ok in_index

/-- DbTiles.configure (tileconfig.py lines 70-90).  Extent mode calls
with_extent, whose first step read_extent unconditionally raises
NotImplementedError (line 107), so it never reaches the within-extent
query. -/
def DbTiles.configure (index : List String) (tiles : Option (List String))
    (extent : Option String) : Except PyError (List String) :=
  if (truthyOptStr extent && truthyOptList tiles) ||
      (!truthyOptStr extent && !truthyOptList tiles) then
    .error .valueErrorProvideEither
  else if truthyOptStr extent then
    .error .notImplementedError
  else
    with_list index (tiles.getD [])

/-! ## TilePartitioner version-aware mode: DbTilesAHN -/

/-- The oracle data of the store queries issued by DbTilesAHN, plus the
feature tile index used by the embedded feature_tiles DbTiles:

* featureIndex: tile-id column of the feature tile index, for
  feature_tiles.configure;
* versions: the result rows of versions() after int conversion
  (tileconfig.py lines 484-506);
* boundaryTiles: the result of version_boundary() (lines 508-525);
* versionNotBoundary: the result dict of version_not_boundary()
  (lines 528-581) as a list of (version, feature tile ids) rows;
* elevMatchRows: per feature tile, the result rows (elevation tile id,
  nullable version) of the spatial match query of match_elevation_tile
  with idx_identical false (lines 623-650);
* viewOk: whether the CREATE VIEW statement of create_tile_view succeeds
  for a tile (lines 725-729). -/
structure AhnEnv where
  featureIndex : List String
  versions : List Int
  boundaryTiles : List String
  versionNotBoundary : List (Int × List String)
  elevMatchRows : String → List (String × Option Int)
  viewOk : String → Bool

/-- The fields of DbTilesAHN set by configure. -/
structure AhnState where
  to_process : List String
  elevation_file_index : List (String × List (String × Int))
  feature_views : List (String × Option String)
deriving DecidableEq, Repr

/-- DbTilesAHN.match_elevation_tile with idx_identical false (tileconfig.py
lines 623-661): lower-case the tile id of each row, keep rows with a
truthy (non-null, non-zero) version.  In this branch the duplicate check
compares the builtin id against the dict, which is always absent, so a
duplicate tile id silently overwrites the earlier row. -/
def match_elevation_tile (env : AhnEnv) (feature_tile : String) :
    List (String × Int) :=
  (env.elevMatchRows feature_tile).foldl
    (fun acc row =>
      match row.2 with
      | some v => if v = 0 then acc else insertD (strLower row.1) v acc
      | none => acc)
    []

/-- DbTilesAHN.create_tile_view (tileconfig.py lines 663-730) for the
branches reachable from configure: tin raises NotImplementedError; a
failed CREATE VIEW is logged and yields None; otherwise the view is named
by prefixing an underscore to the tile id. -/
def create_tile_view (env : AhnEnv) (feature_tile : String) (tin : Bool) :
    Except PyError (Option String) :=
  if tin then .error .notImplementedError
  else .ok (if env.viewOk feature_tile then some ("_" ++ feature_tile) else none)

/-- The per-tile path collection of the three refinement branches of
DbTilesAHN.configure.  checked true is the first branch (lines 324-333):
membership in elevation_file_paths is tested first and misses are only
logged.  checked false is the other two branches (lines 357-361, 383-385):
the dict is subscripted directly, so a missing key raises KeyError.  In
every branch a None elevation_file_paths raises TypeError as soon as one
matched elevation tile is examined. -/
def collectPaths (efp : Option FileIdx) (checked : Bool) :
    List (String × Int) → List (String × Int) → Except PyError (List (String × Int))
  | [], acc => .ok acc
  | (ahn_id, ver) :: rest, acc =>
    match efp with
    | none => .error .typeError
    | some fi =>
      match lookupD ahn_id fi with
      | some ps => collectPaths efp checked rest (acc ++ ps.map fun p => (p, ver))
      | none =>
        if checked then collectPaths efp checked rest acc
        else .error .keyError

/-- The loop over the refined to_process of DbTilesAHN.configure: for each
tile, resolve the matching elevation tiles, attach file-index entries and
create the per-tile view, accumulating elevation_file_index and
feature_views. -/
def refineTiles (env : AhnEnv) (efp : Option FileIdx) (tin checked : Bool) :
    List String →
    List (String × List (String × Int)) × List (String × Option String) →
    Except PyError (List (String × List (String × Int)) × List (String × Option String))
  | [], st => .ok st
  | t :: ts, st =>
    match collectPaths efp checked (match_elevation_tile env t) [] with
    | .error e => .error e
    | .ok paths =>
      match create_tile_view env t tin with
      | .error e => .error e
      | .ok v => refineTiles env efp tin checked ts
          (insertD t paths st.1, insertD t v st.2)

/-- The guard of the first refinement branch of DbTilesAHN.configure
(tileconfig.py line 317): version is None and on_border is None or False. -/
def ahnBranch1 (version : Option Int) (on_border : Option Bool) : Bool :=
  version == none && (on_border == none || on_border == some false)

/-- The guard of the second branch (line 340): version is not None and
on_border is exactly False. -/
def ahnBranch2 (version : Option Int) (on_border : Option Bool) : Bool :=
  version != none && on_border == some false

/-- The guard of the third branch (line 374): on_border is truthy. -/
def ahnBranch3 (_version : Option Int) (on_border : Option Bool) : Bool :=
  on_border == some true

/-- DbTilesAHN.configure (tileconfig.py lines 279-396).  The set
intersections of the second and third branches are modelled as a
deduplicating filter; Python set order is arbitrary, so any enumeration
of the intersection is a faithful model.  The del statements at lines
338, 367 and 390 delete loop-local names, so they raise NameError when
the per-tile loop body never ran; this is modelled by the emptiness
checks after each branch selection. -/
def DbTilesAHN.configure (env : AhnEnv) (tiles : Option (List String))
    (extent : Option String) (version : Option Int) (on_border : Option Bool)
    (directory_mapping : Option (List DirSource)) (tin : Bool) :
    Except PyError AhnState :=
  match DbTiles.configure env.featureIndex tiles extent with
  | .error e => .error e
  | .ok ftp =>
  let efp := create_elevation_file_index directory_mapping
  if ahnBranch1 version on_border then
    let tp := ftp
    match refineTiles env efp tin true tp ([], []) with
    | .error e => .error e
    | .ok st =>
      if tp.isEmpty then .error .nameError
      else .ok ⟨tp, st.1, st.2⟩
  else if ahnBranch2 version on_border then
    let v := version.getD 0
    if v ∉ env.versions then .error (.valueErrorVersionNotInIndex v)
    else
      let tpv := env.versionNotBoundary
      if tpv.length > 0 then
        match lookupD v tpv with
        | none => .error .keyError
        | some vtiles =>
          let tp := vtiles.dedup.filter fun t => decide (t ∈ ftp)
          match refineTiles env efp tin false tp ([], []) with
          | .error e => .error e
          | .ok st =>
            if tp.isEmpty then .error .nameError
            else .ok ⟨tp, st.1, st.2⟩
      else
        .ok ⟨[], [], []⟩
  else if ahnBranch3 version on_border then
    let tp := env.boundaryTiles.dedup.filter fun t => decide (t ∈ ftp)
    match refineTiles env efp tin false tp ([], []) with
    | .error e => .error e
    | .ok st =>
      if tp.isEmpty then .error .nameError
      else .ok ⟨tp, st.1, st.2⟩
  else
    .error .attributeErrorUnknownConfiguration

/-! ## WorkerPool: ThreadProcessor

ThreadProcessor._process (processor.py lines 111-133) submits one worker
call per tile to a thread pool and yields (tile, result) pairs in
completion order; a worker exception is logged and re-raised, aborting the
generator.  Completion order is scheduler-dependent; the embedding fixes
submission order, which is one admissible completion order (the spec
guarantees no order, and every property proved here is order-insensitive
or stated for this order).  A worker is a function from the attempt number
(0 for the initial attempt, r for restart r) and the tile id to an
exception or a boolean. -/

/-- Result collection of one attempt: the pairs yielded by _process, up to
the first worker exception, which propagates (processor.py lines 124-131
together with the consuming list comprehension at line 94/105). -/
def collectResults {ε : Type} (worker : String → Except ε Bool) :
    List String → Except ε (List (String × Bool))
  | [] => .ok []
  | t :: ts =>
    match worker t with
    | .error e => .error e
    | .ok b =>
      match collectResults worker ts with
      | .error e => .error e
      | .ok rs => .ok ((t, b) :: rs)

/-- failed_tiles = [tile for tile, result in proc_result if result is False]
(processor.py lines 94 and 105). -/
def failedOf (rs : List (String × Bool)) : List String :=
  (rs.filter fun p => p.2 = false).map Prod.fst

/-- The while loop of ThreadProcessor.process (processor.py lines 95-107):
budget is the number of restarts still allowed (restart - _restart) and
i the number of restarts already logged (_restart).  Each restart narrows
the tile set to exactly the failed tiles, increments the counter, logs,
and runs another attempt. -/
def processLoop {ε : Type} (worker : Nat → String → Except ε Bool) :
    Nat → Nat → List String → Except ε (List String × Nat)
  | 0, i, failed => .ok (failed, i)
  | budget + 1, i, failed =>
    if failed.isEmpty then .ok (failed, i)
    else
      match collectResults (worker (i + 1)) failed with
      | .error e => .error e
      | .ok rs => processLoop worker budget (i + 1) (failedOf rs)

/-- ThreadProcessor.process (processor.py lines 84-109): one initial
attempt over the configured tile set, then the restart loop.  The result
pairs the tiles still failing with the number of restarts that were
logged. -/
def ThreadProcessor.process {ε : Type} (worker : Nat → String → Except ε Bool)
    (tiles : List String) (restart : Nat) : Except ε (List String × Nat) :=
  match collectResults (worker 0) tiles with
  | .error e => .error e
  | .ok rs => processLoop worker restart 0 (failedOf rs)

/-- A worker that never raises, from a boolean task function. -/
def pureWorker (f : Nat → String → Bool) : Nat → String → Except PyError Bool :=
  fun i t => .ok (f i t)

/-- The names of the files of a directory source whose extracted tile id
is t, in listing order. -/
def matchingNames (s : DirSource) (t : String) : List String :=
  ((s.entries.filter fun e => e.2 && (extractTile s.file_pattern e.1 == some t)).map
    Prod.fst)

/-- The 5-tile scenario of the spec: tiles t1 and t2 fail. -/
def fiveTiles : List String := ["t1", "t2", "t3", "t4", "t5"]

/-- A task that deterministically fails exactly t1 and t2 on every
attempt. -/
def alwaysFailT : Nat → String → Bool := fun _ t => !(t == "t1" || t == "t2")

/-- A task that fails t1 and t2 on the initial attempt only. -/
def failFirstT : Nat → String → Bool :=
  fun i t => if i = 0 then !(t == "t1" || t == "t2") else true

/-- A small concrete store environment: one feature tile t1, AHN versions
2 and 3, t1 on the version boundary, no version-not-boundary rows, no
matching elevation rows, view creation succeeding. -/
def envA : AhnEnv :=
  ⟨["t1"], [2, 3], ["t1"], [], fun _ => [], fun _ => true⟩

/-- A worker raising on tile t2 and succeeding elsewhere. -/
def raisingWorker : String → Except PyError Bool :=
  fun t => if t = "t2" then .error .typeError else .ok true

/-- The spec scenario source at priority 1: directory /a with pattern
C_placeholderTile.LAZ holding C_25GN1_6.LAZ. -/
def srcA : DirSource :=
  ⟨"/a", "C_{tile}.LAZ", 1, [("C_25GN1_6.LAZ", true)]⟩

/-- The spec scenario source at priority 2: directory /b with pattern
unit_placeholderTile.LAZ holding unit_25gn1_6.LAZ and unit_25gn1_15.LAZ. -/
def srcB : DirSource :=
  ⟨"/b", "unit_{tile}.LAZ", 2, [("unit_25gn1_6.LAZ", true), ("unit_25gn1_15.LAZ", true)]⟩

/-! ## Lemmas and the claim theorems -/

theorem oor_none_right {V : Type} (a : Option V) : oor a none = a := by
  cases a <;> rfl

theorem map_oor {V W : Type} (f : V → W) (a b : Option V) :
    Option.map f (oor a b) = oor (a.map f) (b.map f) := by
  cases a <;> cases b <;> rfl

section DictLemmas

variable {κ : Type} [DecidableEq κ] {V : Type}

theorem lookupD_insertD (k k' : κ) (v : V) (d : List (κ × V)) :
    lookupD k (insertD k' v d) = if k = k' then some v else lookupD k d := by
  induction d with
  | nil => by_cases h : k = k' <;> simp [insertD, lookupD, h]
  | cons hd tl ih =>
    obtain ⟨k'', v''⟩ := hd
    by_cases h1 : k' = k''
    · subst h1
      by_cases h2 : k = k' <;> simp [insertD, lookupD, h2]
    · by_cases h2 : k = k''
      · subst h2
        have hne : ¬k = k' := fun h => h1 (h ▸ rfl)
        simp [insertD, lookupD, h1, hne]
      · simp [insertD, lookupD, h1, h2, ih]

theorem mem_keysD_insertD (a k : κ) (v : V) (d : List (κ × V)) :
    a ∈ keysD (insertD k v d) ↔ a = k ∨ a ∈ keysD d := by
  induction d with
  | nil => simp [insertD, keysD]
  | cons hd tl ih =>
    obtain ⟨k'', v''⟩ := hd
    by_cases h1 : k = k''
    · simp_all [insertD, keysD]
    · simp_all [insertD, keysD]
      tauto

theorem mem_keysD_iff_lookupD (k : κ) (d : List (κ × V)) :
    k ∈ keysD d ↔ (lookupD k d).isSome := by
  induction d with
  | nil => simp [keysD, lookupD]
  | cons hd tl ih =>
    obtain ⟨k'', v''⟩ := hd
    by_cases h : k = k'' <;> simp_all [keysD, lookupD]

theorem lookupD_appendAtD (k k' : κ) (v : List V) (d : List (κ × List V)) :
    lookupD k (appendAtD k' v d) =
      if k = k' then
        (match lookupD k' d with
         | some xs => some (xs ++ v)
         | none => some v)
      else lookupD k d := by
  induction d with
  | nil => by_cases h : k = k' <;> simp [appendAtD, lookupD, h]
  | cons hd tl ih =>
    obtain ⟨k'', v''⟩ := hd
    by_cases h1 : k' = k''
    · subst h1
      by_cases h2 : k = k' <;> simp [appendAtD, lookupD, h2]
    · by_cases h2 : k = k''
      · subst h2
        have hne : ¬k = k' := fun h => h1 (h ▸ rfl)
        simp [appendAtD, lookupD, h1, hne]
      · simp [appendAtD, lookupD, h1, h2, ih]

theorem lookupD_append (k : κ) (xs ys : List (κ × V)) :
    lookupD k (xs ++ ys) = oor (lookupD k xs) (lookupD k ys) := by
  induction xs with
  | nil => simp [lookupD, oor]
  | cons hd tl ih =>
    obtain ⟨k', v'⟩ := hd
    by_cases h : k = k' <;> simp [lookupD, h, oor, ih]

theorem lookupD_map_override (k : κ) (a b : List (κ × V)) :
    lookupD k (a.map fun p => (p.1, (lookupD p.1 b).getD p.2)) =
      (lookupD k a).map fun v => (lookupD k b).getD v := by
  induction a with
  | nil => simp [lookupD]
  | cons hd tl ih =>
    obtain ⟨k', v'⟩ := hd
    by_cases h : k = k'
    · subst h
      simp [lookupD]
    · simp [lookupD, h, ih]

theorem lookupD_filter_disjoint (k : κ) (a b : List (κ × V)) :
    lookupD k (b.filter fun p => (lookupD p.1 a).isNone) =
      if (lookupD k a).isNone then lookupD k b else none := by
  induction b with
  | nil => simp [lookupD]
  | cons hd tl ih =>
    obtain ⟨k', v'⟩ := hd
    by_cases h : k = k'
    · subst h
      cases ha : lookupD k a with
      | none => simp [List.filter, lookupD, ha, ih]
      | some w => simp [List.filter, lookupD, ha, ih]
    · cases hp : (lookupD k' a).isNone <;>
        simp [List.filter, lookupD, hp, h, ih]

theorem lookupD_mergeD (k : κ) (a b : List (κ × V)) :
    lookupD k (mergeD a b) = oor (lookupD k b) (lookupD k a) := by
  unfold mergeD
  rw [lookupD_append, lookupD_map_override, lookupD_filter_disjoint]
  cases ha : lookupD k a with
  | none => cases hb : lookupD k b <;> simp [oor]
  | some v => cases hb : lookupD k b <;> simp [oor]

end DictLemmas

/-! ## Helper lemmas -/

theorem oor_none {V : Type} (b : Option V) : oor none b = b := rfl

theorem oor_some {V : Type} (x : V) (b : Option V) : oor (some x) b = some x := rfl

theorem oor_assoc {V : Type} (a b c : Option V) :
    oor (oor a b) c = oor a (oor b c) := by
  cases a <;> cases b <;> rfl

theorem getLast?_cons_oor {V : Type} (x : V) (xs : List V) :
    (x :: xs).getLast? = oor xs.getLast? (some x) := by
  induction xs with
  | nil => rfl
  | cons y ys _ =>
    rw [List.getLast?_cons_cons]
    cases h : (y :: ys).getLast? with
    | none => simp [List.getLast?] at h
    | some z => rfl

theorem scanDir_fold (pat dir : String) (t : String) (es : List (String × Bool))
    (acc : FileIdx) :
    lookupD t (es.foldl (scanStep pat dir) acc) =
    oor (((es.filter fun e => e.2 && (extractTile pat e.1 == some t)).map
        Prod.fst).getLast?.map fun name => [pyJoin dir name])
      (lookupD t acc) := by
  induction es generalizing acc with
  | nil => simp [oor]
  | cons e es ih =>
    obtain ⟨name, isf⟩ := e
    cases isf with
    | false =>
      have hstep : scanStep pat dir acc (name, false) = acc := by
        simp [scanStep]
      rw [List.foldl_cons, hstep, ih acc]
      simp [List.filter]
    | true =>
      cases hx : extractTile pat name with
      | none =>
        have hstep : scanStep pat dir acc (name, true) = acc := by
          simp [scanStep, hx]
        rw [List.foldl_cons, hstep, ih acc]
        simp [List.filter, hx]
      | some t' =>
        have hstep : scanStep pat dir acc (name, true) =
            insertD t' [pyJoin dir name] acc := by
          simp [scanStep, hx]
        rw [List.foldl_cons, hstep]
        by_cases ht : t' = t
        · subst ht
          rw [ih (insertD t' [pyJoin dir name] acc)]
          rw [lookupD_insertD, if_pos rfl]
          have hfil : ((name, true) :: es).filter
              (fun e => e.2 && (extractTile pat e.1 == some t')) =
              (name, true) :: es.filter (fun e => e.2 && (extractTile pat e.1 == some t')) := by
            simp [List.filter, hx]
          rw [hfil, List.map_cons, getLast?_cons_oor, map_oor, oor_assoc]
          cases hl : (((es.filter fun e => e.2 && (extractTile pat e.1 == some t')).map
              Prod.fst).getLast?) <;> simp [oor]
        · have hne : (extractTile pat name == some t) = false := by
            simp [hx, ht]
          rw [ih (insertD t' [pyJoin dir name] acc)]
          rw [lookupD_insertD, if_neg (fun h : t = t' => ht h.symm)]
          simp [List.filter, hne]

/-- C10 helper: the per-directory scan keyed at a tile is the path of the
last matching file. -/
theorem scanDir_lookup (s : DirSource) (t : String) :
    lookupD t (scanDir s) =
      (matchingNames s t).getLast?.map fun name => [pyJoin s.dir name] := by
  have h := scanDir_fold s.file_pattern s.dir t s.entries []
  rw [scanDir, h, matchingNames]
  have : lookupD (V := List String) t [] = none := rfl
  rw [this, oor_none_right]

/-! ## The claims -/

/-- C8: create_elevation_file_index on a None or empty directory mapping.
The claim states the result is an empty mapping; the code instead returns
the None sentinel (tileconfig.py lines 438-440), which is not a dict at
all, so the claim as stated is false. -/
theorem C8_counterexample_empty_mapping_returns_none :
    create_elevation_file_index none ≠ some ([] : FileIdx) ∧
    create_elevation_file_index (some []) ≠ some ([] : FileIdx) := by
  exact ⟨by simp [create_elevation_file_index], by simp [create_elevation_file_index]⟩

/-- C8 (amended): a None or empty directory mapping yields the None
sentinel, without raising: the embedded function is total and returns
none in both cases (the code logs at debug level and returns None). -/
theorem C8_empty_mapping_yields_none_sentinel :
    create_elevation_file_index none = none ∧
    create_elevation_file_index (some []) = none := by
  exact ⟨rfl, rfl⟩

/-- C10: within one directory source, the scan keeps at most one file path
per tile id: the index at tile t is exactly the singleton path of the last
file in listing order whose extracted tile id is t (later files overwrite
earlier ones), and none when no file matches. -/
theorem C10_scan_keeps_last_singleton_per_tile (s : DirSource) (t : String) :
    lookupD t (scanDir s) =
      (matchingNames s t).getLast?.map fun name => [pyJoin s.dir name] :=
  scanDir_lookup s t

/-- C2: ThreadProcessor.process runs one attempt, then while the failed
set is non-empty and fewer than restart restarts have happened, narrows
the tile set to exactly the failed tiles, counts (logs) that restart and
reruns; it returns the tiles still failing after the last attempt.  The
first two conjuncts are the exit and step laws of the restart loop; the
last two are the spec scenarios: with the task that always fails t1 and
t2, process(restart := 3) logs exactly 3 restarts and returns
[t1, t2]; with the task failing them only on the first attempt it
returns [] (after a single logged restart). -/
theorem C2_process_restarts_failed_tiles :
    (∀ (w : Nat → String → Except PyError Bool) (i : Nat) (failed : List String),
      processLoop w 0 i failed = .ok (failed, i)) ∧
    (∀ (w : Nat → String → Except PyError Bool) (budget i : Nat) (failed : List String),
      processLoop w (budget + 1) i failed =
        if failed.isEmpty then .ok (failed, i)
        else
          match collectResults (w (i + 1)) failed with
          | .error e => .error e
          | .ok rs => processLoop w budget (i + 1) (failedOf rs)) ∧
    ThreadProcessor.process (pureWorker alwaysFailT) fiveTiles 3 =
      .ok (["t1", "t2"], 3) ∧
    ThreadProcessor.process (pureWorker failFirstT) fiveTiles 3 = .ok ([], 1) := by
  refine ⟨fun w i failed => rfl, fun w budget i failed => ?_, ?_, ?_⟩
  · cases hf : failed.isEmpty with
    | true => simp [processLoop, hf]
    | false =>
      cases hc : collectResults (w (i + 1)) failed with
      | error e => simp [processLoop, hf, hc]
      | ok rs => simp [processLoop, hf, hc]
  · rfl
  · rfl

/-- C3: an unhandled worker exception propagates out of result collection
and out of process, aborting the attempt.  First conjunct: if every tile
before t completes with a boolean and the worker raises on t, the
collection of that attempt is exactly that error (tiles after t are never
collected, so this layer cannot retry them).  Second conjunct: an
erroring first attempt makes process itself return the error, whatever
the restart budget.  Third conjunct: a successfully collected result list
only ever contains tiles whose worker returned a boolean, so a raising
tile is never recorded as a boolean per-tile failure. -/
theorem C3_exception_aborts_attempt :
    (∀ (w : String → Except PyError Bool) (pre : List String) (t : String)
        (post : List String) (e : PyError),
      (∀ p ∈ pre, ∃ b, w p = .ok b) → w t = .error e →
      collectResults w (pre ++ t :: post) = .error e) ∧
    (∀ (w : Nat → String → Except PyError Bool) (tiles : List String) (n : Nat)
        (e : PyError),
      collectResults (w 0) tiles = .error e →
      ThreadProcessor.process w tiles n = .error e) ∧
    (∀ (w : String → Except PyError Bool) (tiles : List String)
        (rs : List (String × Bool)) (t : String) (b : Bool),
      collectResults w tiles = .ok rs → (t, b) ∈ rs → w t = .ok b) := by
  refine ⟨?_, ?_, ?_⟩
  · intro w pre t post e hpre ht
    induction pre with
    | nil => simp [collectResults, ht]
    | cons p ps ih =>
      obtain ⟨b, hb⟩ := hpre p (List.mem_cons_self p ps)
      have hps : ∀ q ∈ ps, ∃ b, w q = .ok b := fun q hq =>
        hpre q (List.mem_cons_of_mem p hq)
      simp only [List.cons_append, collectResults, hb]
      simp only [List.append_eq]
      rw [ih hps]
  · intro w tiles n e h
    simp [ThreadProcessor.process, h]
  · intro w tiles
    induction tiles with
    | nil =>
      intro rs t b h hm
      simp only [collectResults] at h
      cases h
      simp at hm
    | cons t0 ts ih =>
      intro rs t b h hm
      simp only [collectResults] at h
      cases hw : w t0 with
      | error e => rw [hw] at h; cases h
      | ok b0 =>
        rw [hw] at h
        cases hc : collectResults w ts with
        | error e => rw [hc] at h; cases h
        | ok rs0 =>
          rw [hc] at h
          cases h
          rcases List.mem_cons.mp hm with h1 | h2
          · injection h1 with h1a h1b
            subst h1a
            subst h1b
            exact hw
          · exact ih rs0 t b hc h2

/-- C4: DbTiles.configure validates that exactly one selector is given.
Both selectors, or neither (an empty tile list and the empty string
counting as not supplied), raise the both-or-neither ValueError.  With
only a tile list, that error is not raised and to_process is the resolved
list.  With only an extent the claim fails on the code: read_extent
unconditionally raises NotImplementedError (tileconfig.py line 107),
contradicting the repository's own test_read_extent, so to_process is
never populated in extent mode; the last conjunct evaluates the failing
input. -/
theorem C4_configure_selector_validation :
    (∀ (index l : List String) (e : String), l.isEmpty = false →
      e.isEmpty = false →
      DbTiles.configure index (some l) (some e) = .error .valueErrorProvideEither) ∧
    (∀ index : List String,
      DbTiles.configure index none none = .error .valueErrorProvideEither ∧
      DbTiles.configure index (some []) none = .error .valueErrorProvideEither ∧
      DbTiles.configure index none (some "") = .error .valueErrorProvideEither) ∧
    (∀ index tiles : List String, tiles.isEmpty = false →
      (if tiles = ["all"] then all_in_index index else tiles_in_index index tiles) ≠ [] →
      DbTiles.configure index (some tiles) none =
        .ok (if tiles = ["all"] then all_in_index index else tiles_in_index index tiles)) ∧
    DbTiles.configure ["25gn1_1"] none (some "extent_small.geojson") =
      .error .notImplementedError := by
  refine ⟨?_, ?_, ?_, rfl⟩
  · intro index l e hl he
    simp [DbTiles.configure, truthyOptStr, truthyOptList, hl, he]
  · intro index
    exact ⟨rfl, rfl, rfl⟩
  · intro index tiles hl hres
    have hne : ¬((if tiles = ["all"] then all_in_index index
        else tiles_in_index index tiles).length = 0) := by
      simpa [List.length_eq_zero] using hres
    simp [DbTiles.configure, truthyOptStr, truthyOptList, hl, with_list, hne]

/-- C6: extent-mode configure is claimed to read the polygon, take its
SRID-tagged WKB and resolve the tiles by the spatial query; the code
instead fails unconditionally, because read_extent raises
NotImplementedError before anything is read (tileconfig.py lines
107-109), contradicting the repository's own test_read_extent.  Stated
by evaluating configure at a valid extent-mode input. -/
theorem C6_extent_mode_raises_not_implemented :
    DbTiles.configure ["25gn1_10", "25gn1_11"] none
      (some "tests/data/extent_small.geojson") = .error .notImplementedError := rfl

/-- C7: list-mode selection.  The sentinel list containing only the word
all resolves to the distinct tile ids of the index; any other list
resolves to the distinct requested ids present in the index, with absent
ids dropped (only a warning is logged, which does not affect the result);
an empty resolution raises the none-of-the-requested-tiles ValueError
instead of yielding an empty tile set. -/
theorem C7_with_list_resolution (index tiles : List String) :
    (∀ xs, with_list index ["all"] = .ok xs →
      ((∀ t, t ∈ xs ↔ t ∈ index) ∧ xs.Nodup)) ∧
    (tiles ≠ ["all"] → ∀ xs, with_list index tiles = .ok xs →
      ((∀ t, t ∈ xs ↔ t ∈ index ∧ t ∈ tiles) ∧ xs.Nodup)) ∧
    (tiles ≠ ["all"] → tiles_in_index index tiles = [] →
      with_list index tiles = .error .valueErrorNoTilesInIndex) ∧
    (index = [] → with_list index tiles = .error .valueErrorNoTilesInIndex) := by
  refine ⟨?_, ?_, ?_, ?_⟩
  · intro xs h
    have hw : with_list index ["all"] =
        if (all_in_index index).length = 0 then .error .valueErrorNoTilesInIndex
        else .ok (all_in_index index) := by
      simp [with_list]
    rw [hw] at h
    by_cases hz : (all_in_index index).length = 0
    · rw [if_pos hz] at h; cases h
    · rw [if_neg hz] at h
      cases h
      exact ⟨fun t => by simp [all_in_index], List.nodup_dedup index⟩
  · intro hne xs h
    have hw : with_list index tiles =
        if (tiles_in_index index tiles).length = 0 then .error .valueErrorNoTilesInIndex
        else .ok (tiles_in_index index tiles) := by
      simp [with_list, hne]
    rw [hw] at h
    by_cases hz : (tiles_in_index index tiles).length = 0
    · rw [if_pos hz] at h; cases h
    · rw [if_neg hz] at h
      cases h
      constructor
      · intro t
        simp [tiles_in_index, List.mem_filter]
      · exact List.nodup_dedup _
  · intro hne hempty
    simp [with_list, hne, hempty]
  · intro hidx
    subst hidx
    by_cases hall : tiles = ["all"] <;>
      simp [with_list, hall, all_in_index, tiles_in_index]

/-- C7 witness: a request for a tile absent from the index resolves to
nothing and raises the ValueError. -/
theorem C7_with_list_resolution_witness :
    with_list ["b"] ["zz"] = .error .valueErrorNoTilesInIndex :=
  (C7_with_list_resolution ["b"] ["zz"]).2.2.1 (by decide) rfl

/-- C5 counterexample: supplying both a version and on_border true does
not fail with an input-validation error; configure takes the boundary
branch and succeeds, silently ignoring the version (tileconfig.py line
374 is reached because the elif chain tests on_border truthiness before
the final else).  The repository's own test_configure_border passes
version 2 together with on_border True and expects this behavior. -/
theorem C5_counterexample_version_with_border_succeeds :
    DbTilesAHN.configure envA (some ["t1"]) none (some 2) (some true) none false =
      .ok ⟨["t1"], [("t1", [])], [("t1", some "_t1")]⟩ := rfl

/-- C5 (amended): the three refinement branch guards are pairwise
mutually exclusive, and the only rejected combination is a version
supplied with on_border None (neither True nor False): that falls through
to the final else and raises AttributeError, after base selection and
file-index construction.  A version supplied together with on_border true
is not rejected: the boundary branch applies and the version argument is
ignored (the result coincides with the call without a version). -/
theorem C5_branch_exclusivity_and_fallthrough :
    (∀ (v : Option Int) (ob : Option Bool),
      (ahnBranch1 v ob && ahnBranch2 v ob) = false ∧
      (ahnBranch1 v ob && ahnBranch3 v ob) = false ∧
      (ahnBranch2 v ob && ahnBranch3 v ob) = false) ∧
    (∀ (env : AhnEnv) (tiles : Option (List String)) (extent : Option String)
        (v : Int) (dm : Option (List DirSource)) (tin : Bool) (ftp : List String),
      DbTiles.configure env.featureIndex tiles extent = .ok ftp →
      DbTilesAHN.configure env tiles extent (some v) none dm tin =
        .error .attributeErrorUnknownConfiguration) ∧
    (∀ (env : AhnEnv) (tiles : Option (List String)) (extent : Option String)
        (v : Int) (dm : Option (List DirSource)) (tin : Bool),
      DbTilesAHN.configure env tiles extent (some v) (some true) dm tin =
        DbTilesAHN.configure env tiles extent none (some true) dm tin) := by
  refine ⟨?_, ?_, ?_⟩
  · intro v ob
    cases v <;> rcases ob with _ | b <;> first
      | exact ⟨rfl, rfl, rfl⟩
      | (cases b <;> exact ⟨rfl, rfl, rfl⟩)
  · intro env tiles extent v dm tin ftp h
    simp [DbTilesAHN.configure, h, ahnBranch1, ahnBranch2, ahnBranch3]
  · intro env tiles extent v dm tin
    cases h : DbTiles.configure env.featureIndex tiles extent with
    | error e => simp [DbTilesAHN.configure, h]
    | ok ftp => simp [DbTilesAHN.configure, h, ahnBranch1, ahnBranch2, ahnBranch3]

/-- C5 witness: the fall-through conjunct applied at a concrete input: a
version together with on_border None raises the AttributeError. -/
theorem C5_branch_exclusivity_and_fallthrough_witness :
    DbTilesAHN.configure envA (some ["t1"]) none (some 2) none none false =
      .error .attributeErrorUnknownConfiguration :=
  C5_branch_exclusivity_and_fallthrough.2.1 envA (some ["t1"]) none 2 none false
    ["t1"] rfl

/-- C9 helper: the per-tile refinement loop only adds keys of the
processed tile list to the elevation file index. -/
theorem refineTiles_keys (env : AhnEnv) (efp : Option FileIdx) (tin checked : Bool) :
    ∀ (ts : List String)
      (st st' : List (String × List (String × Int)) × List (String × Option String)),
      refineTiles env efp tin checked ts st = .ok st' →
      ∀ k, k ∈ keysD st'.1 → k ∈ keysD st.1 ∨ k ∈ ts := by
  intro ts
  induction ts with
  | nil =>
    intro st st' h k hk
    simp only [refineTiles] at h
    cases h
    exact Or.inl hk
  | cons t ts ih =>
    intro st st' h k hk
    simp only [refineTiles] at h
    cases hc : collectPaths efp checked (match_elevation_tile env t) [] with
    | error e => rw [hc] at h; cases h
    | ok paths =>
      rw [hc] at h
      cases hv : create_tile_view env t tin with
      | error e => rw [hv] at h; cases h
      | ok v =>
        rw [hv] at h
        rcases ih _ _ h k hk with h1 | h2
        · rcases (mem_keysD_insertD k t paths st.1).mp h1 with rfl | h3
          · exact Or.inr (List.mem_cons_self _ _)
          · exact Or.inl h3
        · exact Or.inr (List.mem_cons_of_mem _ h2)

/-- C9: after every successful DbTilesAHN.configure call, every key of
the built elevation file index is a tile of to_process, in all three
refinement branches (in each branch the index is populated by the loop
over exactly the refined to_process list; in the empty
version-not-boundary sub-branch both are empty). -/
theorem C9_file_index_keys_subset_to_process (env : AhnEnv)
    (tiles : Option (List String)) (extent : Option String)
    (version : Option Int) (on_border : Option Bool)
    (dm : Option (List DirSource)) (tin : Bool) (st : AhnState)
    (h : DbTilesAHN.configure env tiles extent version on_border dm tin = .ok st) :
    keysD st.elevation_file_index ⊆ st.to_process := by
  unfold DbTilesAHN.configure at h
  split at h
  · cases h
  · rename_i ftp hcfg
    split at h
    · -- branch 1
      dsimp only at h
      split at h
      · cases h
      · rename_i st2 hr
        split at h
        · cases h
        · cases h
          intro k hk
          rcases refineTiles_keys env _ tin true ftp ([], []) st2 hr k hk with h3 | h4
          · simp [keysD] at h3
          · exact h4
    · split at h
      · -- branch 2
        dsimp only at h
        split at h
        · cases h
        · split at h
          · -- version-not-boundary rows present
            split at h
            · cases h
            · rename_i vtiles hlk
              split at h
              · cases h
              · rename_i st2 hr
                split at h
                · cases h
                · cases h
                  intro k hk
                  rcases refineTiles_keys env _ tin false _ ([], []) st2 hr k hk with h3 | h4
                  · simp [keysD] at h3
                  · exact h4
          · cases h
            intro k hk
            simp [keysD] at hk
      · split at h
        · -- branch 3
          dsimp only at h
          split at h
          · cases h
          · rename_i st2 hr
            split at h
            · cases h
            · cases h
              intro k hk
              rcases refineTiles_keys env _ tin false _ ([], []) st2 hr k hk with h3 | h4
              · simp [keysD] at h3
              · exact h4
        · cases h

/-- C9 witness: the subset property at a successful concrete
configuration. -/
theorem C9_file_index_keys_subset_to_process_witness :
    keysD (AhnState.mk ["t1"] [("t1", [])] [("t1", some "_t1")]).elevation_file_index ⊆
      (AhnState.mk ["t1"] [("t1", [])] [("t1", some "_t1")]).to_process :=
  C9_file_index_keys_subset_to_process envA (some ["t1"]) none none (some true) none
    false ⟨["t1"], [("t1", [])], [("t1", some "_t1")]⟩ rfl

/-! ## C1: the priority-merge policy of the file index -/

theorem lastSome_append {α : Type} (a b : List (Option α)) :
    lastSome (a ++ b) = oor (lastSome b) (lastSome a) := by
  induction a with
  | nil => simp [lastSome, oor_none_right]
  | cons x xs ih =>
    simp only [List.cons_append, lastSome, List.append_eq, ih, oor_assoc]

theorem lastSome_reverse {α : Type} (l : List (Option α)) :
    lastSome l.reverse = firstSome l := by
  induction l with
  | nil => rfl
  | cons x xs ih =>
    rw [List.reverse_cons, lastSome_append, ih]
    rfl

theorem firstSome_map_none {α β : Type} (f : α → Option β) (l : List α)
    (h : ∀ x ∈ l, f x = none) : firstSome (l.map f) = none := by
  induction l with
  | nil => rfl
  | cons x xs ih =>
    rw [List.map_cons, firstSome, h x (List.mem_cons_self x xs),
      ih fun y hy => h y (List.mem_cons_of_mem x hy)]
    rfl

theorem firstSome_map_append_skip {α β : Type} (f : α → Option β)
    (l₁ l₂ : List α) (s : α) (h : ∀ x ∈ l₁, f x = none) :
    firstSome ((l₁ ++ s :: l₂).map f) = oor (f s) (firstSome (l₂.map f)) := by
  induction l₁ with
  | nil => rfl
  | cons x xs ih =>
    rw [List.cons_append, List.map_cons, firstSome, h x (List.mem_cons_self x xs),
      ih fun y hy => h y (List.mem_cons_of_mem x hy)]
    rfl

theorem f_idxOf_fold (d : String) (L : List DirSource) (acc : List (String × FileIdx)) :
    lookupD d (L.foldl (fun acc s => insertD s.dir (scanDir s) acc) acc) =
      oor (((L.filter fun s => decide (s.dir = d)).map scanDir).getLast?)
        (lookupD d acc) := by
  induction L generalizing acc with
  | nil => simp [oor]
  | cons s rest ih =>
    rw [List.foldl_cons, ih]
    by_cases h : s.dir = d
    · subst h
      have hfil : ((s :: rest).filter fun x => decide (x.dir = s.dir)) =
          s :: (rest.filter fun x => decide (x.dir = s.dir)) := by
        simp [List.filter]
      rw [hfil, List.map_cons, getLast?_cons_oor, oor_assoc]
      rw [lookupD_insertD, if_pos rfl]
      cases hl : ((rest.filter fun x => decide (x.dir = s.dir)).map scanDir).getLast? <;>
        simp [oor]
    · have hfil : ((s :: rest).filter fun x => decide (x.dir = d)) =
          rest.filter fun x => decide (x.dir = d) := by
        simp [List.filter, h]
      rw [hfil, lookupD_insertD, if_neg (fun hdd : d = s.dir => h hdd.symm)]

theorem lookupD_f_idxOf (L : List DirSource) (s : DirSource)
    (hdirs : (L.map fun x => x.dir).Nodup) (hs : s ∈ L) :
    lookupD s.dir (f_idxOf L) = some (scanDir s) := by
  have hfil : (L.filter fun x => decide (x.dir = s.dir)) = [s] := by
    induction L with
    | nil => cases hs
    | cons y rest ih =>
      rw [List.map_cons, List.nodup_cons] at hdirs
      rcases List.mem_cons.mp hs with rfl | hmem
      · have hrest : (rest.filter fun x => decide (x.dir = s.dir)) = [] := by
          rw [List.filter_eq_nil_iff]
          intro x hx
          simp only [decide_eq_true_eq]
          intro hdir
          exact hdirs.1 (hdir ▸ List.mem_map_of_mem (fun z => z.dir) hx)
        simp [List.filter, hrest]
      · have hyd : ¬(y.dir = s.dir) := by
          intro hdir
          exact hdirs.1 (hdir ▸ List.mem_map_of_mem (fun z => z.dir) hmem)
        simp only [List.filter]
        rw [decide_eq_false hyd]
        exact ih hdirs.2 hmem
  rw [f_idxOf, f_idxOf_fold, hfil]
  rfl

theorem mergeGo_no_tie (f_idx : List (String × FileIdx)) (t : String) :
    ∀ (rs : List DirSource) (p : Int) (fi : FileIdx),
      p ∉ rs.map (fun x => x.priority) → (rs.map fun x => x.priority).Nodup →
      lookupD t (mergeGo f_idx (some p) fi rs) =
        oor (lastSome (rs.map fun s => lookupD t ((lookupD s.dir f_idx).getD [])))
          (lookupD t fi) := by
  intro rs
  induction rs with
  | nil =>
    intro p fi _ _
    simp [mergeGo, lastSome, oor]
  | cons s rest ih =>
    intro p fi hp hnd
    rw [List.map_cons, List.nodup_cons] at hnd
    have hps : ¬(p = s.priority) := by
      intro h
      exact hp (by rw [List.map_cons]; exact h ▸ List.mem_cons_self _ _)
    have hred : mergeGo f_idx (some p) fi (s :: rest) =
        mergeGo f_idx (some s.priority)
          (mergeD fi ((lookupD s.dir f_idx).getD [])) rest := by
      simp [mergeGo, hps]
    rw [hred, ih s.priority _ hnd.1 hnd.2, lookupD_mergeD]
    rw [List.map_cons, lastSome, oor_assoc]

theorem mergeGo_seed (f_idx : List (String × FileIdx)) (t : String)
    (rs : List DirSource) (h : (rs.map fun x => x.priority).Nodup) :
    lookupD t (mergeGo f_idx none [] rs) =
      lastSome (rs.map fun s => lookupD t ((lookupD s.dir f_idx).getD [])) := by
  cases rs with
  | nil => rfl
  | cons s rest =>
    rw [List.map_cons, List.nodup_cons] at h
    have hred : mergeGo f_idx none [] (s :: rest) =
        mergeGo f_idx (some s.priority) ((lookupD s.dir f_idx).getD []) rest := by
      simp [mergeGo]
    rw [hred, mergeGo_no_tie f_idx t rest s.priority _ h.1 h.2]
    rw [List.map_cons, lastSome]

theorem build_file_index_lookup (srcs : List DirSource) (t : String)
    (hdirs : (srcs.map fun x => x.dir).Nodup)
    (hpri : (srcs.map fun x => x.priority).Nodup) :
    lookupD t (build_file_index srcs) =
      firstSome ((sortByPriority srcs).map fun s => lookupD t (scanDir s)) := by
  have hperm : List.Perm (sortByPriority srcs) srcs :=
    List.perm_insertionSort priLE srcs
  have hdirsL : ((sortByPriority srcs).map fun x => x.dir).Nodup :=
    ((hperm.map _).nodup_iff).mpr hdirs
  have hpriL : ((sortByPriority srcs).map fun x => x.priority).Nodup :=
    ((hperm.map _).nodup_iff).mpr hpri
  have hpriR : (((sortByPriority srcs).reverse).map fun x => x.priority).Nodup := by
    rw [List.map_reverse]
    exact List.nodup_reverse.mpr hpriL
  rw [build_file_index]
  rw [mergeGo_seed _ t _ hpriR, List.map_reverse, lastSome_reverse]
  congr 1
  apply List.map_congr_left
  intro s hsL
  rw [lookupD_f_idxOf (sortByPriority srcs) s hdirsL hsL, Option.getD_some]

theorem keysD_nodup_insertD {κ V : Type} [DecidableEq κ] (k : κ) (v : V)
    (d : List (κ × V)) (h : (keysD d).Nodup) : (keysD (insertD k v d)).Nodup := by
  induction d with
  | nil => simp [insertD, keysD]
  | cons hd tl ih =>
    obtain ⟨k', v'⟩ := hd
    rw [keysD, List.map_cons, List.nodup_cons] at h
    by_cases hk : k = k'
    · subst hk
      have hred : insertD k v ((k, v') :: tl) = (k, v) :: tl := by
        simp [insertD]
      rw [hred, keysD, List.map_cons, List.nodup_cons]
      exact ⟨h.1, h.2⟩
    · simp only [insertD, if_neg hk, keysD, List.map_cons, List.nodup_cons]
      refine ⟨?_, ih h.2⟩
      intro hmem
      rcases (mem_keysD_insertD k' k v tl).mp hmem with h1 | h2
      · exact hk h1.symm
      · exact h.1 h2

theorem scanDir_keys_nodup (s : DirSource) : (keysD (scanDir s)).Nodup := by
  rw [scanDir]
  have : ∀ (es : List (String × Bool)) (acc : FileIdx), (keysD acc).Nodup →
      (keysD (es.foldl (scanStep s.file_pattern s.dir) acc)).Nodup := by
    intro es
    induction es with
    | nil => intro acc h; exact h
    | cons e rest ih =>
      intro acc h
      rw [List.foldl_cons]
      apply ih
      rw [scanStep]
      by_cases he : e.2
      · rw [if_pos he]
        cases hx : extractTile s.file_pattern e.1 with
        | none => exact h
        | some tile => exact keysD_nodup_insertD _ _ _ h
      · rw [if_neg he]
        exact h
  exact this s.entries [] (by simp [keysD])

theorem tieMerge_fold (t : String) (g : String → List String) :
    ∀ (ks : List String) (fi : FileIdx), ks.Nodup →
      lookupD t (ks.foldl (fun acc k => appendAtD k (g k) acc) fi) =
        if t ∈ ks then
          (match lookupD t fi with
           | some xs => some (xs ++ g t)
           | none => some (g t))
        else lookupD t fi := by
  intro ks
  induction ks with
  | nil => intro fi _; simp
  | cons k ks' ih =>
    intro fi hnd
    rw [List.nodup_cons] at hnd
    rw [List.foldl_cons, ih _ hnd.2]
    by_cases hmem : t ∈ ks'
    · have htk : ¬(t = k) := fun h => hnd.1 (h ▸ hmem)
      rw [if_pos hmem, if_pos (List.mem_cons_of_mem k hmem)]
      rw [lookupD_appendAtD, if_neg htk]
    · rw [if_neg hmem]
      rw [lookupD_appendAtD]
      by_cases htk : t = k
      · subst htk
        rw [if_pos rfl, if_pos (List.mem_cons_self t ks')]
        cases hfi : lookupD t fi <;> rfl
      · rw [if_neg htk]
        have : ¬(t ∈ k :: ks') := by
          intro hc
          rcases List.mem_cons.mp hc with h1 | h2
          · exact htk h1
          · exact hmem h2
        rw [if_neg this]

theorem tieMerge_lookup (t : String) (fi di : FileIdx)
    (h : (keysD di).Nodup) :
    lookupD t (tieMerge fi di) = combineOpt (lookupD t fi) (lookupD t di) := by
  rw [tieMerge, tieMerge_fold t _ _ fi h]
  by_cases hmem : t ∈ keysD di
  · rw [if_pos hmem]
    have hsome := (mem_keysD_iff_lookupD t di).mp hmem
    cases hdi : lookupD t di with
    | none => rw [hdi] at hsome; cases hsome
    | some v =>
      rw [Option.getD_some]
      cases hfi : lookupD t fi <;> rfl
  · rw [if_neg hmem]
    have hnone : lookupD t di = none := by
      cases hdi : lookupD t di with
      | none => rfl
      | some v =>
        exact absurd ((mem_keysD_iff_lookupD t di).mpr (by rw [hdi]; rfl)) hmem
    rw [hnone]
    cases hfi : lookupD t fi <;> rfl

/-- The merge of exactly two equal-priority directory sources: the tie
branch concatenates the per-tile lists, with the later-listed source
(processed first in the reversed order) first. -/
theorem build_file_index_two_tie (s1 s2 : DirSource) (t : String)
    (hp : s1.priority = s2.priority) (hd : s1.dir ≠ s2.dir) :
    lookupD t (build_file_index [s1, s2]) =
      combineOpt (lookupD t (scanDir s2)) (lookupD t (scanDir s1)) := by
  have hsort : sortByPriority [s1, s2] = [s1, s2] := by
    rw [sortByPriority]
    show List.orderedInsert priLE s1 (List.orderedInsert priLE s2 []) = [s1, s2]
    rw [List.orderedInsert_nil]
    exact List.orderedInsert_of_le priLE [] (le_of_eq hp)
  have hfidx : f_idxOf [s1, s2] = [(s1.dir, scanDir s1), (s2.dir, scanDir s2)] := by
    rw [f_idxOf]
    simp [insertD, hd, Ne.symm hd]
  have hlk2 : lookupD s2.dir [(s1.dir, scanDir s1), (s2.dir, scanDir s2)] =
      some (scanDir s2) := by
    rw [lookupD, if_neg (fun h => hd h.symm), lookupD, if_pos rfl]
  have hlk1 : lookupD s1.dir [(s1.dir, scanDir s1), (s2.dir, scanDir s2)] =
      some (scanDir s1) := by
    rw [lookupD, if_pos rfl]
  rw [build_file_index, hsort, hfidx]
  show lookupD t (mergeGo _ none [] [s2, s1]) = _
  have h1 : mergeGo [(s1.dir, scanDir s1), (s2.dir, scanDir s2)] none [] [s2, s1] =
      mergeGo [(s1.dir, scanDir s1), (s2.dir, scanDir s2)] (some s2.priority)
        (scanDir s2) [s1] := by
    simp [mergeGo, hlk2]
  have h2 : mergeGo [(s1.dir, scanDir s1), (s2.dir, scanDir s2)] (some s2.priority)
      (scanDir s2) [s1] = tieMerge (scanDir s2) (scanDir s1) := by
    simp [mergeGo, hlk1, hp.symm]
  rw [h1, h2]
  exact tieMerge_lookup t _ _ (scanDir_keys_nodup s1)

/-- C3 witness: with a worker raising on t2 between two healthy tiles,
collection of the attempt is the propagated error. -/
theorem C3_exception_aborts_attempt_witness :
    collectResults raisingWorker (["t1"] ++ "t2" :: ["t3"]) = .error .typeError :=
  C3_exception_aborts_attempt.1 raisingWorker ["t1"] "t2" ["t3"] .typeError
    (fun p hp => by
      have hp1 : p = "t1" := List.mem_singleton.mp hp
      subst hp1
      exact ⟨true, rfl⟩)
    rfl

/-- C4 witness: supplying both selectors at a concrete input raises the
both-or-neither ValueError. -/
theorem C4_configure_selector_validation_witness :
    DbTiles.configure ["t1"] (some ["t1"]) (some "x.geojson") =
      .error .valueErrorProvideEither :=
  C4_configure_selector_validation.1 ["t1"] ["t1"] "x.geojson" rfl (by decide)

/-- C1: the priority-merge policy of create_elevation_file_index.  For a
directory mapping whose sources have pairwise-distinct priorities (dict
keys, i.e. directories, are distinct by construction), the index maps
each tile to exactly the per-directory scan of the single
lowest-priority-number source covering that tile (first conjunct), and to
nothing when no source covers it (second conjunct); two sources sharing a
priority have their per-tile path lists concatenated (third conjunct);
and on the two-directory spec scenario with priorities 1 and 2 the result
is exactly the claimed mapping, tile ids extracted case-insensitively and
lower-cased (fourth conjunct). -/
theorem C1_priority_merge_file_index :
    (∀ (srcs : List DirSource) (t : String) (s : DirSource),
      ((srcs.map fun x => x.dir).Nodup) →
      ((srcs.map fun x => x.priority).Nodup) →
      s ∈ srcs → (lookupD t (scanDir s)).isSome →
      (∀ s2 ∈ srcs, (lookupD t (scanDir s2)).isSome → s.priority ≤ s2.priority) →
      lookupD t (build_file_index srcs) = lookupD t (scanDir s)) ∧
    (∀ (srcs : List DirSource) (t : String),
      ((srcs.map fun x => x.dir).Nodup) →
      ((srcs.map fun x => x.priority).Nodup) →
      (∀ s2 ∈ srcs, lookupD t (scanDir s2) = none) →
      lookupD t (build_file_index srcs) = none) ∧
    (∀ (s1 s2 : DirSource) (t : String), s1.priority = s2.priority →
      s1.dir ≠ s2.dir →
      lookupD t (build_file_index [s1, s2]) =
        combineOpt (lookupD t (scanDir s2)) (lookupD t (scanDir s1))) ∧
    create_elevation_file_index (some [srcA, srcB]) =
      some [("25gn1_6", ["/a/C_25GN1_6.LAZ"]), ("25gn1_15", ["/b/unit_25gn1_15.LAZ"])] := by
  refine ⟨?_, ?_, build_file_index_two_tie, by decide⟩
  · intro srcs t s hdirs hpri hs hcov hmin
    rw [build_file_index_lookup srcs t hdirs hpri]
    have hperm : List.Perm (sortByPriority srcs) srcs :=
      List.perm_insertionSort priLE srcs
    have hsorted : List.Sorted priLE (sortByPriority srcs) :=
      List.sorted_insertionSort priLE srcs
    have hpriL : ((sortByPriority srcs).map fun x => x.priority).Nodup :=
      (hperm.map _).nodup_iff.mpr hpri
    have hsL : s ∈ sortByPriority srcs := hperm.mem_iff.mpr hs
    obtain ⟨l₁, l₂, hL⟩ := List.append_of_mem hsL
    have hnone : ∀ e ∈ l₁, lookupD t (scanDir e) = none := by
      intro e he
      by_contra hne
      have hecov : (lookupD t (scanDir e)).isSome := Option.ne_none_iff_isSome.mp hne
      have heS : e ∈ srcs := hperm.mem_iff.mp (hL ▸ List.mem_append_left _ he)
      have h1 : s.priority ≤ e.priority := hmin e heS hecov
      have h2 : priLE e s := by
        have hso := hsorted
        rw [hL] at hso
        exact (List.pairwise_append.mp hso).2.2 e he s (List.mem_cons_self _ _)
      have heq : e.priority = s.priority := le_antisymm h2 h1
      have hnd := hpriL
      rw [hL, List.map_append, List.map_cons] at hnd
      have hdisj := (List.nodup_append.mp hnd).2.2
      have hmem2 : e.priority ∈ s.priority :: l₂.map fun x => x.priority := by
        rw [heq]
        exact List.mem_cons_self _ _
      exact hdisj (List.mem_map_of_mem _ he) hmem2
    rw [hL, firstSome_map_append_skip _ l₁ l₂ s hnone]
    cases hcv : lookupD t (scanDir s) with
    | none => rw [hcv] at hcov; cases hcov
    | some v => rfl
  · intro srcs t hdirs hpri hnone
    rw [build_file_index_lookup srcs t hdirs hpri]
    apply firstSome_map_none
    intro x hx
    exact hnone x ((List.perm_insertionSort priLE srcs).mem_iff.mp hx)

/-- C1 witness: the override conjunct applied to the spec scenario: the
shared tile 25gn1_6 resolves to the priority-1 source's path. -/
theorem C1_priority_merge_file_index_witness :
    lookupD "25gn1_6" (build_file_index [srcA, srcB]) =
      lookupD "25gn1_6" (scanDir srcA) :=
  C1_priority_merge_file_index.1 [srcA, srcB] "25gn1_6" srcA (by decide) (by decide)
    (by decide) (by decide) (by decide)

end TileProc
